import Mathlib

/-!
Verification of the incremental-build-orchestrator core (twitter-commons
pants slice) against its natural-language specification.

The Lean definitions below are shallow embeddings of the Python sources:

* `tasks/cache_manager.py` — versioned targets, versioned target sets,
  `InvalidationCheck._partition_versioned_targets`;
* `base/worker_pool.py` — `submit_async_work`, `submit_async_work_chain`,
  the pending-workchains counter consulted by `shutdown`;
* `goal/run_tracker.py` — the `new_work_scope` context manager;
* `reporting/report.py` — `Report.end_workunit` / `Report._notify`;
* `reporting/reporting_server.py` — `do_GET` access control,
  `_serve_file_content`, `_handle_browse`, `_handle_content`.

Machine-level details that the claims do not touch (thread scheduling,
pickling, HTML template rendering) are represented abstractly; everything
the claims quantify over is translated operation by operation.
-/

/-! ## Cache manager (tasks/cache_manager.py) -/

deriving instance DecidableEq for Except

/-- A versioned target: a target paired with its cache key and the cache
manager that produced it.  The manager is represented by an opaque
identifier (Python compares `_cache_manager` instances by identity); the
target by its id; `sources` is the target source count consulted by the
partitioning algorithm. -/
structure VersionedTarget where
  target : Nat
  cache_manager : Nat
  sources : Nat
deriving DecidableEq, Repr

/-- A versioned target set: the list of member versioned targets plus the
cache manager they share.  The combined cache key is a function of the
member keys and plays no role in the claims below. -/
structure VersionedTargetSet where
  cache_manager : Nat
  versioned_targets : List VersionedTarget
deriving DecidableEq, Repr

/-- `VersionedTargetSet.from_versioned_targets`: takes the first member's
cache manager and raises `ValueError` if any member has a different one
(`versioned_targets[0]` on an empty list raises `IndexError`). -/
def from_versioned_targets (l : List VersionedTarget) :
    Except String VersionedTargetSet :=
  match l with
  | [] => .error "IndexError"
  | first :: rest =>
    if (first :: rest).all (fun vt => vt.cache_manager == first.cache_manager) then
      .ok ⟨first.cache_manager, first :: rest⟩
    else
      .error "ValueError: combining versioned targets with different CacheManager instances"

/-- The mutable group state of `_partition_versioned_targets` (`VtGroup`
in the source): the versioned targets gathered so far and the running
source total.  In the source, `add_to_current_group` appends to `vts`
and never touches `total_sources`. -/
structure VtGroup where
  vts : List VersionedTarget
  total_sources : Nat
deriving DecidableEq, Repr

/-- `close_current_group`: if the group is non-empty, combine it into one
`VersionedTargetSet`, append it to the result and reset the group. -/
def close_current_group (g : VtGroup) (res : List VersionedTargetSet) :
    Except String (List VersionedTargetSet × VtGroup) :=
  if g.vts.length > 0 then do
    let new_vt ← from_versioned_targets g.vts
    pure (res ++ [new_vt], ⟨[], 0⟩)
  else
    pure (res, g)

/-- The loop body of `InvalidationCheck._partition_versioned_targets`,
exactly as transcribed from the source: each `vt` is appended to the
current group (`add_to_current_group`, which does not change
`total_sources`); then, if `total_sources > 1.5 * hint` and the group has
more than one element, the current `vt` is popped, the group closed, and
`vt` begins the next group; otherwise, if `total_sources > hint`, the
group is closed with `vt` inside.  The float comparison
`total > 1.5 * hint` is rendered over `Nat` as `2 * total > 3 * hint`. -/
def partition_loop (hint : Nat) :
    List VersionedTarget → VtGroup → List VersionedTargetSet →
    Except String (List VersionedTargetSet)
  | [], g, res => do
      let (res2, _) ← close_current_group g res
      pure res2
  | vt :: rest, g, res =>
      let g1 : VtGroup := ⟨g.vts ++ [vt], g.total_sources⟩
      if 2 * g1.total_sources > 3 * hint ∧ g1.vts.length > 1 then do
        let g2 : VtGroup := ⟨g1.vts.dropLast, g1.total_sources⟩
        let (res2, g3) ← close_current_group g2 res
        partition_loop hint rest ⟨g3.vts ++ [vt], g3.total_sources⟩ res2
      else if g1.total_sources > hint then do
        let (res2, g2) ← close_current_group g1 res
        partition_loop hint rest g2 res2
      else
        partition_loop hint rest g1 res

/-- `InvalidationCheck._partition_versioned_targets(versioned_targets,
partition_size_hint)` as written in the source. -/
def partition_versioned_targets (vts : List VersionedTarget) (hint : Nat) :
    Except String (List VersionedTargetSet) :=
  partition_loop hint vts ⟨[], 0⟩ []

/-- The same loop with the accumulation the docstring and spec intend:
`add_to_current_group` also adds `vt.sources` to the running total.  This
definition follows the spec's pseudocode in section 4.3 and exists only to
exhibit how the transcribed code diverges from it. -/
def partition_loop_intended (hint : Nat) :
    List VersionedTarget → VtGroup → List VersionedTargetSet →
    Except String (List VersionedTargetSet)
  | [], g, res => do
      let (res2, _) ← close_current_group g res
      pure res2
  | vt :: rest, g, res =>
      let g1 : VtGroup := ⟨g.vts ++ [vt], g.total_sources + vt.sources⟩
      if 2 * g1.total_sources > 3 * hint ∧ g1.vts.length > 1 then do
        let g2 : VtGroup := ⟨g1.vts.dropLast, g1.total_sources⟩
        let (res2, g3) ← close_current_group g2 res
        partition_loop_intended hint rest ⟨g3.vts ++ [vt], g3.total_sources + vt.sources⟩ res2
      else if g1.total_sources > hint then do
        let (res2, g2) ← close_current_group g1 res
        partition_loop_intended hint rest g2 res2
      else
        partition_loop_intended hint rest g1 res

/-- The spec's intended partitioning algorithm (section 4.3 pseudocode). -/
def partition_versioned_targets_intended (vts : List VersionedTarget) (hint : Nat) :
    Except String (List VersionedTargetSet) :=
  partition_loop_intended hint vts ⟨[], 0⟩ []

/-- The six versioned targets of scenario S1: source counts
`[400, 400, 400, 800, 200, 200]`, all owned by cache manager `0`. -/
def s1_vts : List VersionedTarget :=
  [⟨1, 0, 400⟩, ⟨2, 0, 400⟩, ⟨3, 0, 400⟩, ⟨4, 0, 800⟩, ⟨5, 0, 200⟩, ⟨6, 0, 200⟩]

/-- The four groups that claim C1 expects from scenario S1. -/
def s1_claimed_partition : List VersionedTargetSet :=
  [⟨0, [⟨1, 0, 400⟩, ⟨2, 0, 400⟩]⟩,
   ⟨0, [⟨3, 0, 400⟩]⟩,
   ⟨0, [⟨4, 0, 800⟩]⟩,
   ⟨0, [⟨5, 0, 200⟩, ⟨6, 0, 200⟩]⟩]

/-! ## Worker pool (base/worker_pool.py) -/

/-- `Work`: multiple concurrent calls to the same callable.  The callable
itself is opaque; `args_tuples` holds one argument tuple per invocation
(each tuple rendered as a list of opaque values). -/
structure Work where
  args_tuples : List (List Nat)
  workunit_name : Option String
deriving DecidableEq, Repr

/-- Observable effect of one `submit_async_work` call: either the
`callback` was invoked synchronously on the calling thread (with the
given result list), or one background job per argument tuple was handed
to `ThreadPool.map_async`. -/
inductive PoolEffect
  | callback_called (results : List Nat)
  | enqueued (tuples : List (List Nat))
deriving DecidableEq, Repr

/-- `WorkerPool.submit_async_work(work, callback)`: if `work` is `None`
or has zero argument tuples, invoke `callback([])` synchronously (if a
callback was given) and return; otherwise enqueue one job per tuple via
`map_async`.  The returned list is the sequence of effects the call
itself performs before returning. -/
def submit_async_work (work : Option Work) (has_callback : Bool) :
    List PoolEffect :=
  match work with
  | none => if has_callback then [.callback_called []] else []
  | some w =>
    if w.args_tuples.length = 0 then
      if has_callback then [.callback_called []] else []
    else
      [.enqueued w.args_tuples]

/-- The effects of submitting the same work `n` times in a row. -/
def submit_async_work_n (work : Option Work) (has_callback : Bool)
    (n : Nat) : List PoolEffect :=
  (List.replicate n (submit_async_work work has_callback)).flatten

/-- How many times the success callback was invoked in a list of pool
effects. -/
def count_callback_calls (effs : List PoolEffect) : Nat :=
  effs.countP (fun e => match e with
    | .callback_called _ => true
    | _ => false)

/-- One step of a chain submitted to `submit_async_work_chain`: the
outcome of each invocation of that step's `Work`, in argument-tuple
order (`true` = `work.func` returned, `false` = it raised). -/
def step_failures (step : List Bool) : Nat :=
  step.countP (fun b => b = false)

/-- The chain driver of `submit_async_work_chain`, sequentialised.  It
tracks the `_pending_workchains` counter and how many steps were handed
to `submit_async_work`:

* when `work_iter.next()` raises `StopIteration` (chain exhausted), the
  counter is decremented once and the driver stops;
* a step whose invocations all return lets `map_async` fire the
  success callback, which submits the next step;
* a step with `f ≥ 1` raising invocations is decremented `f` times (the
  `wrapper` around `work.func` decrements once per raising invocation)
  and its `map_async` result is marked unsuccessful, so the callback —
  and with it every later step — is never submitted. -/
def run_chain_from :
    List (List Bool) → Int → Nat → Int × Nat
  | [], pending, submitted => (pending - 1, submitted)
  | step :: rest, pending, submitted =>
    if step_failures step = 0 then
      run_chain_from rest pending (submitted + 1)
    else
      (pending - step_failures step, submitted + 1)

/-- `WorkerPool.submit_async_work_chain(work_chain)` starting from a
given value of `_pending_workchains`: increment the counter, then run
the chain driver.  The result is the final counter value and the number
of steps that were submitted. -/
def submit_async_work_chain (chain : List (List Bool)) (pending : Int) :
    Int × Nat :=
  run_chain_from chain (pending + 1) 0

/-- `WorkerPool.shutdown` blocks while `_pending_workchains > 0`; it is
unblocked exactly when the counter is non-positive. -/
def shutdown_unblocked (pending : Int) : Bool :=
  pending ≤ 0

/-- The number of chain steps `submit_async_work_chain` hands to
`submit_async_work`: every step up to and including the first step with
a raising invocation (all steps when none fails). -/
def submitted_count : List (List Bool) → Nat
  | [] => 0
  | step :: rest =>
    if step_failures step = 0 then 1 + submitted_count rest else 1

/-! ## Run tracker (goal/run_tracker.py) -/

/-- Work unit outcomes, as enumerated by the spec data model:
`{UNKNOWN, FAILURE, WARNING, SUCCESS, ABORTED}`. -/
inductive Outcome
  | aborted
  | failure
  | warning
  | success
  | unknown
deriving DecidableEq, Repr

/-- Severity rank of an outcome: lower is worse.  A work unit starts at
`unknown` (rank 4). -/
def Outcome.rank : Outcome → Nat
  | .aborted => 0
  | .failure => 1
  | .warning => 2
  | .success => 3
  | .unknown => 4

/-- Modelled from the spec: `WorkUnit.set_outcome` (the file
`goal/work_unit.py` is not among the sampled sources; only its callers
are).  The spec orders outcomes `UNKNOWN > SUCCESS > WARNING > FAILURE >
ABORTED` and requires that a `WARNING` set by the callee survive the
scope's final `set_outcome(SUCCESS)` on clean exit, so `set_outcome`
keeps the worse (lower-ranked) of the current and the new outcome. -/
def set_outcome (cur new : Outcome) : Outcome :=
  if new.rank < cur.rank then new else cur

/-- The behaviour of the code block executed inside
`RunTracker.new_work_scope`, as far as the scope can observe it: the
outcome the callee sets on the yielded work unit (if any), and whether
the block raises. -/
structure ScopeBody where
  callee_outcome : Option Outcome
  raises : Bool
deriving DecidableEq, Repr

/-- Observable events of one `new_work_scope` use, in order. -/
inductive ScopeEvent
  | unit_started
  | report_start
  | outcome_set (o : Outcome)
  | unit_ended
  | report_end
deriving DecidableEq, Repr

/-- Final state of the work unit created by a `new_work_scope` use. -/
structure WorkUnitResult where
  outcome : Outcome
  ended : Bool
deriving DecidableEq, Repr

/-- `RunTracker.new_work_scope`: create the work unit (outcome
`UNKNOWN`), `start()` it, report `start_workunit`, run the body (which
may set an outcome and may raise), then in the `finally` block call
`set_outcome(FAILURE)` if the body raised and `set_outcome(SUCCESS)`
otherwise, `end()` the unit and report `end_workunit`.  Returns the work
unit's final state and the event trace. -/
def new_work_scope (body : ScopeBody) : WorkUnitResult × List ScopeEvent :=
  let o1 := match body.callee_outcome with
    | some o => set_outcome Outcome.unknown o
    | none => Outcome.unknown
  let final := if body.raises then set_outcome o1 .failure else set_outcome o1 .success
  (⟨final, true⟩,
    [.unit_started, .report_start] ++
    (match body.callee_outcome with
      | some o => [.outcome_set o]
      | none => []) ++
    [.outcome_set (if body.raises then .failure else .success), .unit_ended, .report_end])

/-! ## Report (reporting/report.py) -/

/-- An open work unit as the `Report` sees it: its id and, per output
label, the bytes produced but not yet drained by `_notify`. -/
structure OpenWorkUnit where
  id : Nat
  outputs : List (String × List Char)
deriving DecidableEq, Repr

/-- The `Report` state protected by its lock: the `workunit_id →
workunit` map of open units and the reporter list (reporters identified
by index). -/
structure ReportState where
  workunits : List OpenWorkUnit
  reporters : List Nat
deriving DecidableEq, Repr

/-- An event delivered to one reporter. -/
inductive ReportEvent
  | handle_output (reporter wu_id : Nat) (label : String) (s : List Char)
  | end_workunit_event (reporter wu_id : Nat)
deriving DecidableEq, Repr

/-- `Report._notify`: for every open work unit and every output label,
drain the readable bytes; every non-empty drain is delivered to every
reporter via `handle_output`. -/
def notify_events (st : ReportState) : List ReportEvent :=
  st.workunits.flatMap (fun wu =>
    wu.outputs.flatMap (fun lo =>
      if lo.2.length > 0 then
        st.reporters.map (fun r => .handle_output r wu.id lo.1 lo.2)
      else []))

/-- The events of `Report.end_workunit(workunit)`: under the lock, first
`_notify()` (drain everything reported until now), then dispatch
`end_workunit` to every reporter (the unit is then removed from the
map). -/
def end_workunit_trace (st : ReportState) (wu_id : Nat) : List ReportEvent :=
  notify_events st ++ st.reporters.map (fun r => .end_workunit_event r wu_id)

/-- The state update of `Report.end_workunit`: all drained buffers are
now empty and the ended unit leaves the map. -/
def end_workunit_state (st : ReportState) (wu_id : Nat) : ReportState :=
  ⟨(st.workunits.map (fun wu => ⟨wu.id, wu.outputs.map (fun lo => (lo.1, []))⟩)).filter
      (fun wu => wu.id ≠ wu_id),
    st.reporters⟩

/-! ## Reporting server (reporting/reporting_server.py) -/

/-- An HTTP response as assembled by `_send_content(content,
content_type, code=200)`. -/
structure Response where
  code : Nat
  content : String
  content_type : String
deriving DecidableEq, Repr

/-- `FileRegionHandler._send_content`, whose `code` argument defaults to
`200`. -/
def send_content (content content_type : String) (code : Nat := 200) : Response :=
  ⟨code, content, content_type⟩

/-- Request paths, filesystem paths and the configured root are
character strings; they are embedded as `List Char` so that Python's
character-level string operations (`startswith`, `split`, joining)
translate one-for-one and stay computable. -/
def handler_table : List (List Char) :=
  ["/runs/".data, "/browse/".data, "/content/".data, "/assets/".data]

/-- Result of `do_GET`: the forbidden-client response, or the prefix of
the handler the request was dispatched to, or no handler matched. -/
inductive GetResult
  | forbidden (resp : Response)
  | dispatched (handler : List Char)
  | unhandled
deriving DecidableEq, Repr

/-- `FileRegionHandler.do_GET`: if the client IP is neither in
`allowed_clients` nor covered by a literal `ALL` entry, send the
forbidden message (via `_send_content` with its default code) and
return without dispatching; otherwise dispatch to the first handler
whose path prefix matches (`path.startswith(prefix)` in
`_maybe_handle`). -/
def do_GET (allowed_clients : List String) (client_ip : String)
    (path : List Char) : GetResult :=
  if ¬ (client_ip ∈ allowed_clients) ∧ ¬ ("ALL" ∈ allowed_clients) then
    .forbidden (send_content ("Access from host " ++ client_ip ++ " forbidden.") "text/html")
  else
    match handler_table.find? (fun entry => entry.isPrefixOf path) with
    | some entry => .dispatched entry
    | none => .unhandled

/-- The status code of a `do_GET` result, when one was sent directly by
`do_GET` itself. -/
def get_result_code : GetResult → Option Nat
  | .forbidden r => some r.code
  | _ => none

/-- A byte-range response of `_serve_file_content`: the status code and
the bytes read from the file (their presentation — template rendering,
and the escaping applied to non-text content types — is display-side
and out of the modelled slice; the claims concern a text/plain file). -/
structure FileContentResponse where
  code : Nat
  data : List Char
deriving DecidableEq, Repr

/-- Python 2 `file.read` after seeking to `pos`: `read()` (argument
absent) and `read(n)` with `n < 0` both read to end of file; `read(n)`
with `n ≥ 0` reads at most `n` bytes. -/
def file_read (data : List Char) (pos : Nat) : Option Int → List Char
  | none => data.drop pos
  | some n => if n < 0 then data.drop pos else (data.drop pos).take n.toNat

/-- `FileRegionHandler._serve_file_content` on a file with the given
bytes: `start = int(params['s'][0]) if 's' in params else 0`, `end`
likewise or `None`; `seek(start)` only if `start` is truthy (a negative
seek raises `IOError`); then `read(end - start) if end else read()`;
the result is sent with `_send_content`'s default code `200`. -/
def serve_file_content (data : List Char) (s e : Option Int) :
    Except String FileContentResponse :=
  let start : Int := match s with
    | some v => v
    | none => 0
  if start < 0 then .error "IOError: negative seek"
  else
    let out := match e with
      | some ev =>
        if ev ≠ 0 then file_read data start.toNat (some (ev - start))
        else file_read data start.toNat none
      | none => file_read data start.toNat none
    .ok ⟨200, out⟩

/-- A filesystem node: a directory or a file with its bytes. -/
inductive FsNode
  | dir
  | file (data : List Char)
deriving DecidableEq, Repr

/-- Filesystem lookup over an association list from absolute path to
node. -/
def fs_lookup (fs : List (List Char × FsNode)) (p : List Char) :
    Option FsNode :=
  (fs.find? (fun entry => entry.1 == p)).map (fun entry => entry.2)

/-- `p.split('/')`, as `os.path.normpath` decomposes the path. -/
def split_path (p : List Char) : List (List Char) := p.splitOn '/'

/-- One component step of `os.path.normpath`: empty and `.` components
vanish; `..` pops the previous component when one is available (for an
absolute path a leading `..` is dropped, for a relative one it is
kept). -/
def norm_step (is_abs : Bool) (acc : List (List Char)) (c : List Char) :
    List (List Char) :=
  if c = [] ∨ c = ['.'] then acc
  else if c = ['.', '.'] then
    if acc ≠ [] ∧ acc.getLast? ≠ some ['.', '.'] then acc.dropLast
    else if is_abs then acc else acc ++ [['.', '.']]
  else acc ++ [c]

/-- `os.path.normpath` for slash-separated paths: collapse empty and
`.` components and resolve `..` components textually. -/
def normpath (p : List Char) : List Char :=
  let is_abs := p.head? == some '/'
  let parts := (split_path p).foldl (norm_step is_abs) []
  let body := List.intercalate ['/'] parts
  if is_abs then '/' :: body else if body = [] then ['.'] else body

/-- `os.path.join(root, rel)` for one relative component string: an
absolute `rel` replaces `root`; otherwise the two are joined with a
single separator. -/
def join_path (root rel : List Char) : List Char :=
  if rel.head? == some '/' then rel
  else if root.getLast? == some '/' then root ++ rel
  else root ++ '/' :: rel

/-- Result of `_handle_browse`: the `ValueError` raised by the
containment check, a directory listing, a file view, or nothing (the
path is neither a directory nor a file). -/
inductive BrowseResult
  | path_error
  | served_dir (abspath : List Char)
  | served_file (abspath : List Char)
  | no_op
deriving DecidableEq, Repr

/-- `FileRegionHandler._handle_browse`: normalize
`os.path.join(root, relpath)` and raise `ValueError` unless the result
still starts with `root` (`abspath.startswith(self._root)`); then serve
the directory or file found there. -/
def handle_browse (fs : List (List Char × FsNode)) (root rel : List Char) :
    BrowseResult :=
  if ¬ (root.isPrefixOf (normpath (join_path root rel)) = true) then .path_error
  else
    match fs_lookup fs (normpath (join_path root rel)) with
    | some .dir => .served_dir (normpath (join_path root rel))
    | some (.file _) => .served_file (normpath (join_path root rel))
    | none => .no_op

/-- `FileRegionHandler._handle_content`: normalize
`os.path.join(root, relpath)` — with no containment check — and hand the
file at that absolute path to `_serve_file_content` (a missing file
makes `open` raise `IOError`). -/
def handle_content (fs : List (List Char × FsNode)) (root rel : List Char)
    (s e : Option Int) : Except String FileContentResponse :=
  match fs_lookup fs (normpath (join_path root rel)) with
  | some (.file data) => serve_file_content data s e
  | _ => .error "IOError: cannot open file"

/-- The filesystem of the C10 escape scenario: the configured root
`/home/user/root` and a secret file that lies outside it. -/
def escape_fs : List (List Char × FsNode) :=
  [("/home/user/root".data, .dir),
   ("/home/user/root/report.txt".data, .file ['o', 'k']),
   ("/home/user/secret.txt".data, .file ['T', 'O', 'P'])]

/-- One loop step when the running total is zero: with `total_sources`
stuck at `0` (as the transcribed code keeps it, since
`add_to_current_group` never increments it), neither closing condition
can fire, so the step only appends the target to the current group. -/
theorem partition_loop_zero_step (hint : Nat) (vt : VersionedTarget)
    (rest acc : List VersionedTarget) (res : List VersionedTargetSet) :
    partition_loop hint (vt :: rest) ⟨acc, 0⟩ res
      = partition_loop hint rest ⟨acc ++ [vt], 0⟩ res := by
  have h1 : ¬ (2 * (VtGroup.mk (acc ++ [vt]) 0).total_sources > 3 * hint ∧
      (VtGroup.mk (acc ++ [vt]) 0).vts.length > 1) := by
    rintro ⟨h, -⟩
    simp at h
  have h2 : ¬ ((VtGroup.mk (acc ++ [vt]) 0).total_sources > hint) := by
    simp
  simp only [partition_loop]
  rw [if_neg h1, if_neg h2]

/-- With the running total stuck at zero, the whole loop accumulates the
remaining targets into the current group and only the final close fires. -/
theorem partition_loop_zero (hint : Nat) :
    ∀ (rest acc : List VersionedTarget) (res : List VersionedTargetSet),
    partition_loop hint rest ⟨acc, 0⟩ res
      = partition_loop hint [] ⟨acc ++ rest, 0⟩ res := by
  intro rest
  induction rest with
  | nil => intro acc res; simp
  | cons vt rest ih =>
      intro acc res
      rw [partition_loop_zero_step hint vt rest acc res, ih (acc ++ [vt]) res]
      simp

/-- C1 (counterexample): on scenario S1 — six versioned targets with
source counts `[400, 400, 400, 800, 200, 200]` and
`partition_size_hint = 1000` — `_partition_versioned_targets` does not
return the four groups `[[vt1,vt2],[vt3],[vt4],[vt5,vt6]]` the claim
expects. -/
theorem C1_partition_s1_counterexample :
    partition_versioned_targets s1_vts 1000 ≠ .ok s1_claimed_partition := by
  decide

/-- C1 (amended): on scenario S1 the transcribed code returns the single
group `[[vt1,vt2,vt3,vt4,vt5,vt6]]`, because `add_to_current_group`
never adds to `total_sources`, so neither closing threshold ever trips;
and even the spec's intended accumulation (section 4.3 pseudocode) would
return `[[vt1,vt2,vt3],[vt4,vt5,vt6]]` — on `vt3` the total `1200`
exceeds the hint but not `1.5 × hint`, so the group closes with `vt3`
inside — not the four groups the claim expects. -/
theorem C1_partition_s1_amended :
    partition_versioned_targets s1_vts 1000 = .ok [⟨0, s1_vts⟩] ∧
    partition_versioned_targets_intended s1_vts 1000 =
      .ok [⟨0, [⟨1, 0, 400⟩, ⟨2, 0, 400⟩, ⟨3, 0, 400⟩]⟩,
           ⟨0, [⟨4, 0, 800⟩, ⟨5, 0, 200⟩, ⟨6, 0, 200⟩]⟩] := by
  constructor <;> rfl

/-- C2: for every list of versioned targets sharing one cache manager and
every positive partition size hint, `_partition_versioned_targets`
succeeds, every input versioned target lies in exactly one returned
`VersionedTargetSet`, and concatenating the partitions in order yields
the input list in its original order. -/
theorem C2_partition_covers_input (vts : List VersionedTarget)
    (hint cm : Nat) (_hpos : 0 < hint)
    (hcm : ∀ vt ∈ vts, vt.cache_manager = cm) :
    ∃ parts, partition_versioned_targets vts hint = .ok parts ∧
      parts.flatMap (fun p => p.versioned_targets) = vts ∧
      ∀ vt ∈ vts,
        parts.countP (fun p => decide (vt ∈ p.versioned_targets)) = 1 := by
  rcases vts with _ | ⟨first, rest⟩
  · exact ⟨[], rfl, rfl, by simp⟩
  · have hall : (first :: rest).all
        (fun vt => vt.cache_manager == first.cache_manager) = true := by
      rw [List.all_eq_true]
      intro vt hvt
      have h1 := hcm vt hvt
      have h2 := hcm first (by simp)
      simp [h1, h2]
    refine ⟨[⟨first.cache_manager, first :: rest⟩], ?_, by simp, ?_⟩
    · unfold partition_versioned_targets
      rw [partition_loop_zero hint (first :: rest) [] []]
      simp only [List.nil_append, partition_loop, close_current_group,
        from_versioned_targets, hall]
      simp
    · intro vt hvt
      simp [List.countP_cons, hvt]

/-- C2 (witness): the theorem instantiated on the six S1 targets with
hint 1000 and cache manager 0. -/
theorem C2_partition_covers_input_witness :
    0 < 1000 ∧ (∀ vt ∈ s1_vts, vt.cache_manager = 0) ∧
    ∃ parts, partition_versioned_targets s1_vts 1000 = .ok parts ∧
      parts.flatMap (fun p => p.versioned_targets) = s1_vts ∧
      ∀ vt ∈ s1_vts,
        parts.countP (fun p => decide (vt ∈ p.versioned_targets)) = 1 :=
  ⟨by decide, by decide,
   C2_partition_covers_input s1_vts 1000 0 (by decide) (by decide)⟩

/-- C6: constructing a `VersionedTargetSet` from a non-empty list of
versioned targets via `from_versioned_targets` succeeds iff every member
has the same cache manager as the first (equivalently, as every other);
as soon as one member differs, a `ValueError` is raised and no set is
produced. -/
theorem C6_from_versioned_targets_manager_invariant
    (first : VersionedTarget) (rest : List VersionedTarget) :
    ((∃ vts, from_versioned_targets (first :: rest) = .ok vts) ↔
      ∀ vt ∈ first :: rest, vt.cache_manager = first.cache_manager) ∧
    (∀ vt ∈ first :: rest, vt.cache_manager ≠ first.cache_manager →
      from_versioned_targets (first :: rest) = .error
        "ValueError: combining versioned targets with different CacheManager instances") := by
  by_cases hall : (first :: rest).all
      (fun vt => vt.cache_manager == first.cache_manager) = true
  · have hforall : ∀ vt ∈ first :: rest, vt.cache_manager = first.cache_manager := by
      rw [List.all_eq_true] at hall
      intro vt hvt
      simpa using hall vt hvt
    constructor
    · exact ⟨fun _ => hforall, fun _ => ⟨⟨first.cache_manager, first :: rest⟩, by
        simp only [from_versioned_targets, if_pos hall]⟩⟩
    · intro vt hvt hne
      exact absurd (hforall vt hvt) hne
  · have hforall : ¬ ∀ vt ∈ first :: rest, vt.cache_manager = first.cache_manager := by
      intro h
      exact hall (List.all_eq_true.2 (fun vt hvt => by simp [h vt hvt]))
    constructor
    · constructor
      · rintro ⟨vts, h⟩
        simp only [from_versioned_targets, if_neg hall] at h
        cases h
      · intro h
        exact absurd h hforall
    · intro vt hvt hne
      simp only [from_versioned_targets, if_neg hall]

/-- C6 (witness): two versioned targets with distinct cache managers 0
and 1 cannot be combined; the construction raises `ValueError`. -/
theorem C6_from_versioned_targets_manager_invariant_witness :
    from_versioned_targets [⟨1, 0, 1⟩, ⟨2, 1, 1⟩] = .error
      "ValueError: combining versioned targets with different CacheManager instances" :=
  (C6_from_versioned_targets_manager_invariant ⟨1, 0, 1⟩ [⟨2, 1, 1⟩]).2
    ⟨2, 1, 1⟩ (by simp) (by decide)

/-- The second component of the chain driver counts submitted steps. -/
theorem run_chain_from_snd (chain : List (List Bool)) :
    ∀ (p : Int) (acc : Nat),
    (run_chain_from chain p acc).2 = acc + submitted_count chain := by
  induction chain with
  | nil => intro p acc; simp [run_chain_from, submitted_count]
  | cons s rest ih =>
      intro p acc
      by_cases h : step_failures s = 0
      · simp only [run_chain_from, submitted_count, if_pos h, ih]
        omega
      · simp only [run_chain_from, submitted_count, if_neg h]

/-- The first component of the chain driver: the counter loses `1` when
the whole chain succeeds (the `StopIteration` decrement) and loses one
unit per raising invocation of the first failing step otherwise. -/
theorem run_chain_from_fst (chain : List (List Bool)) :
    ∀ (p : Int) (acc : Nat),
    (run_chain_from chain p acc).1 =
      match chain.find? (fun s => step_failures s != 0) with
      | none => p - 1
      | some s => p - step_failures s := by
  induction chain with
  | nil => intro p acc; simp [run_chain_from]
  | cons s rest ih =>
      intro p acc
      by_cases h : step_failures s = 0
      · have hfind : List.find? (fun s => step_failures s != 0) (s :: rest)
            = List.find? (fun s => step_failures s != 0) rest :=
          List.find?_cons_of_neg _ (by simp [h])
        simp only [run_chain_from, if_pos h, ih, hfind]
      · have hfind : List.find? (fun s => step_failures s != 0) (s :: rest)
            = some s :=
          List.find?_cons_of_pos _ (by simp [h])
        simp only [run_chain_from, if_neg h, hfind]

/-- A chain step is among the submitted ones exactly when it is in range
and every earlier step ran all its invocations without raising. -/
theorem submitted_count_iff (chain : List (List Bool)) :
    ∀ j : Nat, j < submitted_count chain ↔
      (j < chain.length ∧
        (chain.take j).all (fun s => step_failures s == 0) = true) := by
  induction chain with
  | nil => intro j; simp [submitted_count]
  | cons s rest ih =>
      intro j
      by_cases h : step_failures s = 0
      · cases j with
        | zero => simp [submitted_count, h]
        | succ j =>
            simp only [submitted_count, if_pos h, List.take_succ_cons,
              List.all_cons, List.length_cons]
            rw [show (step_failures s == 0) = true by simp [h]]
            constructor
            · intro hj
              have := (ih j).1 (by omega)
              exact ⟨by omega, by simp [this.2]⟩
            · rintro ⟨hl, hall⟩
              have := (ih j).2 ⟨by omega, by simpa using hall⟩
              omega
      · cases j with
        | zero => simp [submitted_count, h]
        | succ j =>
            simp only [submitted_count, if_neg h, List.take_succ_cons,
              List.all_cons, List.length_cons]
            rw [show (step_failures s == 0) = false by simpa using h]
            simp

/-- C3 (counterexample): a chain whose single step has two raising
invocations.  Starting from `_pending_workchains = 0`, the submission
registers `+1` but each raising invocation decrements once, so the
counter ends at `-1`, not `0` as the claim states (`shutdown` still
unblocks, since it only waits while the counter is positive). -/
theorem C3_work_chain_counterexample :
    (submit_async_work_chain [[false, false]] 0).1 = -1 ∧
    ¬ (submit_async_work_chain [[false, false]] 0).1 = 0 ∧
    shutdown_unblocked (submit_async_work_chain [[false, false]] 0).1 = true := by
  decide

/-- C3 (amended): for every chain and initial counter value, (a) a step
is submitted iff every preceding step completed all its invocations
without raising — so no step after a failed one is ever submitted; (b)
the counter ends back at its initial value when the chain succeeds, and
at `initial + 1 - f` when the first failing step has `f ≥ 1` raising
invocations (each raising invocation decrements once) — zero from a
fresh counter exactly when `f = 1`; (c) hence, starting from `0`, the
final counter is never positive and a concurrent `shutdown()` call
unblocks. -/
theorem C3_work_chain_amended (chain : List (List Bool)) (p : Int) :
    (∀ j : Nat, j < (submit_async_work_chain chain p).2 ↔
      (j < chain.length ∧
        (chain.take j).all (fun s => step_failures s == 0) = true)) ∧
    ((submit_async_work_chain chain p).1 =
      match chain.find? (fun s => step_failures s != 0) with
      | none => p
      | some s => p + 1 - step_failures s) ∧
    shutdown_unblocked (submit_async_work_chain chain 0).1 = true := by
  refine ⟨?_, ?_, ?_⟩
  · intro j
    rw [submit_async_work_chain, run_chain_from_snd chain (p + 1) 0]
    simpa using submitted_count_iff chain j
  · rw [submit_async_work_chain, run_chain_from_fst chain (p + 1) 0]
    cases chain.find? (fun s => step_failures s != 0) with
    | none => simp
    | some s => simp
  · have hfst := run_chain_from_fst chain (0 + 1) 0
    cases hf : chain.find? (fun s => step_failures s != 0) with
    | none =>
        rw [hf] at hfst
        rw [submit_async_work_chain, hfst]
        decide
    | some s =>
        rw [hf] at hfst
        have hs := List.find?_some hf
        have hne : step_failures s ≠ 0 := by simpa using hs
        rw [submit_async_work_chain, hfst]
        simp only [shutdown_unblocked, decide_eq_true_eq]
        show (0 : Int) + 1 - (step_failures s : Int) ≤ 0
        omega

/-- C3 (witness): the amended theorem applied to the chain
`[[true], [false, false], [true]]` — the shutdown-unblocking conjunct at
a concrete input. -/
theorem C3_work_chain_amended_witness :
    shutdown_unblocked
      (submit_async_work_chain [[true], [false, false], [true]] 0).1 = true :=
  (C3_work_chain_amended [[true], [false, false], [true]] 0).2.2

/-- C4: submitting a `Work` with an empty `args_tuples` list together
with a callback invokes the callback with the empty list, synchronously,
as the only effect of the call; submitting such work `n` times invokes
the callback exactly `n` times. -/
theorem C4_zero_cardinality_callback (w : Work)
    (hw : w.args_tuples = []) (n : Nat) :
    submit_async_work (some w) true = [.callback_called []] ∧
    count_callback_calls (submit_async_work_n (some w) true n) = n := by
  have h0 : w.args_tuples.length = 0 := by simp [hw]
  have h1 : submit_async_work (some w) true = [.callback_called []] := by
    simp [submit_async_work, h0]
  refine ⟨h1, ?_⟩
  rw [submit_async_work_n, h1]
  induction n with
  | zero => rfl
  | succ n ih =>
      have hone : count_callback_calls [PoolEffect.callback_called []] = 1 := rfl
      rw [count_callback_calls] at ih hone ⊢
      rw [List.replicate_succ, List.flatten_cons, List.countP_append, ih, hone]
      omega

/-- C4 (witness): the zero-cardinality work `⟨[], none⟩` submitted three
times invokes the callback exactly three times. -/
theorem C4_zero_cardinality_callback_witness :
    submit_async_work (some ⟨[], none⟩) true = [.callback_called []] ∧
    count_callback_calls (submit_async_work_n (some ⟨[], none⟩) true 3) = 3 :=
  C4_zero_cardinality_callback ⟨[], none⟩ rfl 3

/-- C5: on every use of `new_work_scope`, the created work unit is ended
on every exit path, with `end()` and the end report dispatched after the
final outcome assignment; when the body raises, `set_outcome(FAILURE)`
is the outcome assignment performed right before `end()`; a clean exit
with no callee-set outcome yields `SUCCESS`; a raising exit with no
callee-set outcome yields `FAILURE`; and a `WARNING` set by the callee
before a clean exit is preserved. -/
theorem C5_new_work_scope_outcomes (body : ScopeBody) :
    (new_work_scope body).1.ended = true ∧
    (∃ pre, (new_work_scope body).2 =
      pre ++ [ScopeEvent.outcome_set
                (if body.raises then Outcome.failure else Outcome.success),
              ScopeEvent.unit_ended, ScopeEvent.report_end]) ∧
    (body.raises = true → ∃ pre, (new_work_scope body).2 =
      pre ++ [ScopeEvent.outcome_set Outcome.failure,
              ScopeEvent.unit_ended, ScopeEvent.report_end]) ∧
    (body.raises = true → body.callee_outcome = none →
      (new_work_scope body).1.outcome = Outcome.failure) ∧
    (body.raises = false → body.callee_outcome = none →
      (new_work_scope body).1.outcome = Outcome.success) ∧
    (body.raises = false → body.callee_outcome = some Outcome.warning →
      (new_work_scope body).1.outcome = Outcome.warning) := by
  obtain ⟨co, r⟩ := body
  refine ⟨rfl, ?_, ?_, ?_, ?_, ?_⟩
  · cases co with
    | none => exact ⟨[.unit_started, .report_start], rfl⟩
    | some o => exact ⟨[.unit_started, .report_start, .outcome_set o], rfl⟩
  · intro hr
    subst hr
    cases co with
    | none => exact ⟨[.unit_started, .report_start], rfl⟩
    | some o => exact ⟨[.unit_started, .report_start, .outcome_set o], rfl⟩
  · intro hr hco
    subst hr
    subst hco
    rfl
  · intro hr hco
    subst hr
    subst hco
    rfl
  · intro hr hco
    subst hr
    subst hco
    rfl

/-- C5 (witness): a body that sets `WARNING` and exits cleanly ends the
unit with outcome `WARNING`. -/
theorem C5_new_work_scope_outcomes_witness :
    (new_work_scope ⟨some Outcome.warning, false⟩).1.outcome = Outcome.warning :=
  (C5_new_work_scope_outcomes ⟨some Outcome.warning, false⟩).2.2.2.2.2 rfl rfl

/-- C7 (counterexample): for a client IP not in the allow-list (and no
`ALL` entry), `do_GET` answers with status code 200 — the default of
`_send_content`, which the forbidden branch calls without a `code`
argument — not 403 as the claim states. -/
theorem C7_forbidden_client_counterexample :
    get_result_code (do_GET ["10.0.0.1"] "10.0.0.2" "/runs/".data) = some 200 ∧
    get_result_code (do_GET ["10.0.0.1"] "10.0.0.2" "/runs/".data) ≠ some 403 := by
  decide

/-- C7 (amended): a GET request from a client IP that is neither in
`allowed_clients` nor covered by a literal `ALL` entry receives the
`Access from host ... forbidden.` message with status code 200 (the
`_send_content` default; the intended 403 is never passed), and the
request is not dispatched to any handler. -/
theorem C7_forbidden_client_amended (allowed : List String) (ip : String)
    (path : List Char) (h1 : ip ∉ allowed) (h2 : "ALL" ∉ allowed) :
    do_GET allowed ip path =
      .forbidden ⟨200, "Access from host " ++ ip ++ " forbidden.", "text/html"⟩ ∧
    ∀ entry, do_GET allowed ip path ≠ .dispatched entry := by
  have hcond : ¬ (ip ∈ allowed) ∧ ¬ ("ALL" ∈ allowed) := ⟨h1, h2⟩
  constructor
  · simp only [do_GET, if_pos hcond]
    rfl
  · intro entry
    simp only [do_GET, if_pos hcond]
    intro h
    cases h

/-- C7 (witness): the amended theorem at a concrete forbidden client. -/
theorem C7_forbidden_client_amended_witness :
    do_GET ["10.0.0.1"] "10.0.0.2" "/browse/x".data =
      .forbidden ⟨200, "Access from host 10.0.0.2 forbidden.", "text/html"⟩ :=
  (C7_forbidden_client_amended ["10.0.0.1"] "10.0.0.2" "/browse/x".data
    (by decide) (by decide)).1

/-- C8: in the event trace of `Report.end_workunit`, every non-empty
pending output of every open work unit is delivered to every reporter
via `handle_output`, and all of these deliveries precede the
`end_workunit` events, which are themselves delivered to every
reporter — so the end event of a unit is delivered after all output
produced for it before its `end()` call. -/
theorem C8_end_workunit_drains_before_end (st : ReportState) (wu_id : Nat)
    (wu : OpenWorkUnit) (label : String) (s : List Char) (r : Nat)
    (hwu : wu ∈ st.workunits) (hlo : (label, s) ∈ wu.outputs)
    (hs : s.length > 0) (hr : r ∈ st.reporters) :
    ∃ pre post, end_workunit_trace st wu_id = pre ++ post ∧
      ReportEvent.handle_output r wu.id label s ∈ pre ∧
      (∀ ev ∈ pre, ∃ r2 w2 l2 s2, ev = ReportEvent.handle_output r2 w2 l2 s2) ∧
      (∀ ev ∈ post, ∃ r2, ev = ReportEvent.end_workunit_event r2 wu_id) ∧
      (∀ r2 ∈ st.reporters, ReportEvent.end_workunit_event r2 wu_id ∈ post) := by
  refine ⟨notify_events st,
    st.reporters.map (fun r2 => .end_workunit_event r2 wu_id), rfl, ?_, ?_, ?_, ?_⟩
  · refine List.mem_flatMap.2 ⟨wu, hwu, ?_⟩
    refine List.mem_flatMap.2 ⟨(label, s), hlo, ?_⟩
    rw [if_pos hs]
    exact List.mem_map.2 ⟨r, hr, rfl⟩
  · intro ev hev
    obtain ⟨wu2, -, hev2⟩ := List.mem_flatMap.1 hev
    obtain ⟨lo, -, hev3⟩ := List.mem_flatMap.1 hev2
    by_cases hpos : lo.2.length > 0
    · rw [if_pos hpos] at hev3
      obtain ⟨r2, -, hev4⟩ := List.mem_map.1 hev3
      exact ⟨r2, wu2.id, lo.1, lo.2, hev4.symm⟩
    · rw [if_neg hpos] at hev3
      cases hev3
  · intro ev hev
    obtain ⟨r2, -, hev2⟩ := List.mem_map.1 hev
    exact ⟨r2, hev2.symm⟩
  · intro r2 hr2
    exact List.mem_map.2 ⟨r2, hr2, rfl⟩

/-- C8 (witness): one open unit with two pending bytes on `stdout` and
one reporter; ending the unit delivers the output before the end
event. -/
theorem C8_end_workunit_drains_before_end_witness :
    ∃ pre post,
      end_workunit_trace ⟨[⟨1, [("stdout", ['h', 'i'])]⟩], [0]⟩ 1 = pre ++ post ∧
      ReportEvent.handle_output 0 1 "stdout" ['h', 'i'] ∈ pre ∧
      (∀ ev ∈ pre, ∃ r2 w2 l2 s2, ev = ReportEvent.handle_output r2 w2 l2 s2) ∧
      (∀ ev ∈ post, ∃ r2, ev = ReportEvent.end_workunit_event r2 1) ∧
      (∀ r2 ∈ ([0] : List Nat), ReportEvent.end_workunit_event r2 1 ∈ post) :=
  C8_end_workunit_drains_before_end ⟨[⟨1, [("stdout", ['h', 'i'])]⟩], [0]⟩ 1
    ⟨1, [("stdout", ['h', 'i'])]⟩ "stdout" ['h', 'i'] 0
    (by decide) (by decide) (by decide) (by decide)

/-- C9: on a 1000-byte file, `_serve_file_content` with `s=100` and
`e=150` answers status 200 with exactly the 50 bytes at positions
100..149; with `s` absent the read starts at position 0; with `e`
absent the read extends to end of file. -/
theorem C9_serve_file_content_range (data : List Char)
    (hlen : data.length = 1000) :
    serve_file_content data (some 100) (some 150) =
      .ok ⟨200, (data.drop 100).take 50⟩ ∧
    ((data.drop 100).take 50).length = 50 ∧
    (∀ ev : Int, 0 < ev → serve_file_content data none (some ev) =
      .ok ⟨200, data.take ev.toNat⟩) ∧
    serve_file_content data none none = .ok ⟨200, data⟩ ∧
    (∀ v : Int, 0 ≤ v → serve_file_content data (some v) none =
      .ok ⟨200, data.drop v.toNat⟩) := by
  refine ⟨rfl, ?_, ?_, rfl, ?_⟩
  · simp [List.length_take, hlen]
  · intro ev hev
    have h1 : ev ≠ 0 := by omega
    have h2 : ¬ (ev - 0 < 0) := by omega
    simp [serve_file_content, file_read, h1, h2]
    exact fun h3 => absurd h3 (by omega)
  · intro v hv
    have h1 : ¬ (v < 0) := by omega
    simp [serve_file_content, file_read, h1]

/-- C9 (witness): the theorem at a concrete 1000-byte file. -/
theorem C9_serve_file_content_range_witness :
    serve_file_content (List.replicate 1000 'a') (some 100) (some 150) =
      .ok ⟨200, ((List.replicate 1000 'a').drop 100).take 50⟩ ∧
    (((List.replicate 1000 'a').drop 100).take 50).length = 50 :=
  ⟨(C9_serve_file_content_range (List.replicate 1000 'a')
      (List.length_replicate 1000 'a')).1,
   (C9_serve_file_content_range (List.replicate 1000 'a')
      (List.length_replicate 1000 'a')).2.1⟩

/-- C10: `_handle_browse` raises `ValueError` whenever the normalized
joined path does not start with the configured root, while
`_handle_content` performs no containment check: for the root
`/home/user/root` and request path `../secret.txt` (which normalizes to
`/home/user/secret.txt`, outside the root), the `/content` handler
serves the secret file's bytes with status 200 without raising. -/
theorem C10_content_serves_outside_root
    (fs : List (List Char × FsNode)) (root rel : List Char)
    (hesc : root.isPrefixOf (normpath (join_path root rel)) = false) :
    handle_browse fs root rel = .path_error ∧
    handle_content escape_fs "/home/user/root".data "../secret.txt".data
      none none = .ok ⟨200, ['T', 'O', 'P']⟩ ∧
    normpath (join_path "/home/user/root".data "../secret.txt".data)
      = "/home/user/secret.txt".data ∧
    ("/home/user/root".data).isPrefixOf
      (normpath (join_path "/home/user/root".data "../secret.txt".data)) = false := by
  refine ⟨?_, by decide, by decide, by decide⟩
  unfold handle_browse
  rw [if_pos]
  rw [hesc]
  simp

/-- C10 (witness): the browse handler rejects the same escaping request
that the content handler serves. -/
theorem C10_content_serves_outside_root_witness :
    handle_browse escape_fs "/home/user/root".data "../secret.txt".data
      = .path_error :=
  (C10_content_serves_outside_root escape_fs "/home/user/root".data
    "../secret.txt".data (by decide)).1
